import Mathlib

/-!
# Verification of `publishlab/infra-golang-toolkit`: cache and worker pool

A shallow embedding of the two core components of the repository:

* `cache` (src/cache/cache.go) — a generic keyed cache with TTL, a grace
  window, single-flight regeneration and opportunistic garbage collection;
* `workerpool` (src/workerpool/workerpool.go) — a bounded-concurrency
  dispatcher with error collection.

Modelling conventions:

* Go `int64` nanosecond timestamps and durations are modelled as `Int`.
* Go `error` values are modelled as `Option Err` with `Err := String`
  (`none` = `nil`).
* Go's `map[string]*Item[T]` is modelled as an association list
  `List (Key × Item T)`; Go maps have unique keys, so theorems that need
  key uniqueness take a `Nodup` hypothesis on the key list.
* A `*Channel` ready handle is identified by an allocation number
  `readyGen` drawn from a counter `readyCtr` in the cache state; a freshly
  allocated handle gets a number never used before.
* A generator `func() (T, error)` is modelled by the pair it returns; a
  spawned background goroutine (`go func() { data, err := opts.Generator();
  c.write(opts, data, err) }()`) is reified as a `Pass` value returned by
  the operation that spawned it, and its later completion is the `write`
  function applied to that pass.
* Code paths on which the Go source dereferences a possibly-`nil` pointer
  (`write` and `updateCacheItem` look the key up without an existence
  check) are modelled as `Option`-valued functions returning `none` there.
-/

namespace Cache

abbrev Key := String
abbrev Err := String

/-- `Item[T]` from src/cache/cache.go. The `ready *Channel` field is
modelled by the allocation number `readyGen` of the current handle. -/
structure Item (T : Type) where
  data : T
  err : Option Err
  working : Bool
  readyGen : Nat
  created : Int
  expires : Int
  banned : Int
deriving DecidableEq, Repr

/-- `GetOpts[T]`: the generator is modelled by the pair it returns. -/
structure GetOpts (T : Type) where
  key : Key
  ttl : Int
  grace : Int
  gen : T × Option Err
deriving DecidableEq, Repr

/-- `SetOpts[T]` from src/cache/cache.go. -/
structure SetOpts (T : Type) where
  key : Key
  ttl : Int
  grace : Int
  data : T
deriving DecidableEq, Repr

/-- `Opts`: constructor options; durations in nanoseconds
(`time.Duration` is an `int64` nanosecond count). -/
structure Opts where
  defaultTTL : Int
  defaultGrace : Int
  gcInterval : Int
deriving DecidableEq, Repr

/-- `DefaultOpts`: one minute TTL, no grace, one hour GC interval. -/
def DefaultOpts : Opts :=
  { defaultTTL := 60 * 1000000000
    defaultGrace := 0
    gcInterval := 3600 * 1000000000 }

/-- A running generator pass: the goroutine spawned by `createCacheItem`
or `updateCacheItem`, which will eventually call `write key ttl grace`
with the generator's result. -/
structure Pass (T : Type) where
  key : Key
  ttl : Int
  grace : Int
  result : T × Option Err
deriving DecidableEq, Repr

/-- `Cache[T]` from src/cache/cache.go. `readyCtr` is the allocator for
ready-channel identities (not a source field; it names heap allocations). -/
structure CacheState (T : Type) where
  defaultTTL : Int
  defaultGrace : Int
  gcInterval : Int
  lastGcTime : Int
  items : List (Key × Item T)
  readyCtr : Nat
deriving DecidableEq, Repr

/-- Association-list lookup, the model of `c.items[key]`. -/
def lookupItem {α : Type} : List (Key × α) → Key → Option α
  | [], _ => none
  | kv :: rest, k => if kv.1 = k then some kv.2 else lookupItem rest k

/-- Association-list update, the model of `c.items[key] = v`. -/
def setItem {α : Type} : List (Key × α) → Key → α → List (Key × α)
  | [], k, v => [(k, v)]
  | kv :: rest, k, v => if kv.1 = k then (k, v) :: rest else kv :: setItem rest k v

/-- `NewWithOpts` (src/cache/cache.go:70-83). The Go function mutates the
caller's `*Opts` when `GCInterval` is zero; the first component of the
result is the caller's struct after the call. `now` models
`time.Now().UnixNano()`. -/
def newWithOpts (T : Type) (opts : Opts) (now : Int) : Opts × CacheState T :=
  let opts' := if opts.gcInterval = 0 then { opts with gcInterval := DefaultOpts.gcInterval } else opts
  (opts',
    { defaultTTL := opts'.defaultTTL
      defaultGrace := opts'.defaultGrace
      gcInterval := opts'.gcInterval
      lastGcTime := now
      items := []
      readyCtr := 0 })

/-- The eviction condition of `purgeExpiredItems`:
`!v.working && (v.banned > 0) && (now >= v.banned)`. -/
def purgeCond (now : Int) (it : Item α) : Bool :=
  !it.working && decide (0 < it.banned) && decide (it.banned ≤ now)

/-- `purgeExpiredItems` (src/cache/cache.go:121-138): collect the keys of
eligible items, delete those keys from the map, return the count. `now`
models the `time.Now().UnixNano()` read at the start of the sweep. -/
def purgeExpiredItems (now : Int) (items : List (Key × Item T)) :
    List (Key × Item T) × Nat :=
  let expKeys := (items.filter (fun kv => purgeCond now kv.2)).map Prod.fst
  (items.filter (fun kv => !(expKeys.contains kv.1)), expKeys.length)

/-- `write` (src/cache/cache.go:89-115): the completion of a generator
pass. Looks the item up (a missing key would be a nil dereference in Go:
`none`), overwrites its payload and timestamps, clears `working`, stores
the item back, and opportunistically runs a GC sweep. Besides the new
state it returns the written item — the struct a waiter's pointer refers
to when `ready` is observed signalled. -/
def write (c : CacheState T) (key : Key) (ttl grace : Int) (now : Int)
    (data : T) (err : Option Err) : Option (CacheState T × Item T) :=
  match lookupItem c.items key with
  | none => none
  | some item =>
    let item' : Item T :=
      { item with
        data := data
        err := err
        working := false
        created := now
        expires := now + ttl
        banned := now + ttl + grace }
    let items1 := setItem c.items key item'
    if 0 < c.gcInterval ∧ c.lastGcTime + c.gcInterval ≤ now then
      some ({ c with items := (purgeExpiredItems now items1).1, lastGcTime := now }, item')
    else
      some ({ c with items := items1 }, item')

/-- `createCacheItem` (src/cache/cache.go:144-172). Under the write lock:
if the item exists and is already working, return it (race lost, no
generator started). Otherwise install a fresh placeholder (`working=true`,
new ready handle, all other fields zero values) and spawn a generator
pass. Returns the item whose ready handle the caller may wait on, the new
state, and the spawned pass if any. -/
def createCacheItem [Inhabited T] (c : CacheState T) (opts : GetOpts T) :
    Item T × CacheState T × Option (Pass T) :=
  match lookupItem c.items opts.key with
  | some item =>
    if item.working then (item, c, none)
    else
      let fresh : Item T :=
        { data := default, err := none, working := true,
          readyGen := c.readyCtr + 1, created := 0, expires := 0, banned := 0 }
      (fresh,
        { c with items := setItem c.items opts.key fresh, readyCtr := c.readyCtr + 1 },
        some ⟨opts.key, opts.ttl, opts.grace, opts.gen⟩)
  | none =>
    let fresh : Item T :=
      { data := default, err := none, working := true,
        readyGen := c.readyCtr + 1, created := 0, expires := 0, banned := 0 }
    (fresh,
      { c with items := setItem c.items opts.key fresh, readyCtr := c.readyCtr + 1 },
      some ⟨opts.key, opts.ttl, opts.grace, opts.gen⟩)

/-- `updateCacheItem` (src/cache/cache.go:178-201). Under the write lock:
look the item up (missing key is a nil dereference in Go: `none`); if it
is already working, do nothing; otherwise flip `working` on, allocate a
fresh ready handle and spawn a generator pass. -/
def updateCacheItem (c : CacheState T) (opts : GetOpts T) :
    Option (CacheState T × Option (Pass T)) :=
  match lookupItem c.items opts.key with
  | none => none
  | some item =>
    if item.working then some (c, none)
    else
      some
        ({ c with
            items := setItem c.items opts.key
              { item with working := true, readyGen := c.readyCtr + 1 }
            readyCtr := c.readyCtr + 1 },
          some ⟨opts.key, opts.ttl, opts.grace, opts.gen⟩)

/-- The observable outcome of `GetWithOpts` before any waiting:
`ret d e` — the call returns `(d, e)` without waiting on a ready handle;
`wait it` — the call blocks on `it`'s ready handle (`<-item.ready.signal`)
and will return the `(data, err)` of that struct once the pass completes. -/
inductive GetStep (T : Type) where
  | ret (data : T) (err : Option Err)
  | wait (item : Item T)
deriving DecidableEq, Repr

/-- `GetWithOpts` (src/cache/cache.go:207-261) up to the point where the
caller either returns or blocks on a ready handle. Returns the outcome,
the cache state after the call's own effects, and the generator pass the
call spawned, if any (`some` exactly when the goroutine running
`opts.Generator` was started, i.e. the generator was invoked). `none`
overall marks a Go nil dereference (unreachable from states read in the
same call, since `updateCacheItem` is only entered when the key exists). -/
def getWithOpts [Inhabited T] (c : CacheState T) (opts : GetOpts T) (now : Int) :
    Option (GetStep T × CacheState T × Option (Pass T)) :=
  match lookupItem c.items opts.key with
  | some item =>
    if item.err = none ∧ now < item.expires then
      -- Clean cache hit
      some (.ret item.data none, c, none)
    else if item.err = none ∧ now < item.banned then
      -- Graceful cache hit, maybe generate new data
      if item.working then some (.ret item.data none, c, none)
      else (updateCacheItem c opts).map (fun r => (.ret item.data none, r.1, r.2))
    else
      -- Complete miss, new cache item (unless already working)
      if item.working then some (.wait item, c, none)
      else
        let r := createCacheItem c opts
        some (.wait r.1, r.2.1, r.2.2)
  | none =>
    let r := createCacheItem c opts
    some (.wait r.1, r.2.1, r.2.2)

/-- `SetWithOpts` (src/cache/cache.go:280-303) in the quiescent case
(no generator pass already in flight for the key). The call wraps the
value in a generator, takes the refresh path when the key exists and the
create path otherwise, then waits on the item's ready handle: it returns
only once the spawned pass's `write` has run. `now` is the instant of the
call, `nowW` the instant the pass completes. Result: the state after the
pass's write and the written item. A state where the item is already
working (set joins a foreign in-flight pass) is outside this sequential
composition and yields `none`. -/
def setWithOpts [Inhabited T] (c : CacheState T) (opts : SetOpts T)
    (nowW : Int) : Option (CacheState T × Item T) :=
  let gopts : GetOpts T := ⟨opts.key, opts.ttl, opts.grace, (opts.data, none)⟩
  match lookupItem c.items opts.key with
  | some _ =>
    (updateCacheItem c gopts).bind (fun r =>
      match r.2 with
      | some pass => write r.1 pass.key pass.ttl pass.grace nowW pass.result.1 pass.result.2
      | none => none)
  | none =>
    let r := createCacheItem c gopts
    match r.2.2 with
    | some pass => write r.2.1 pass.key pass.ttl pass.grace nowW pass.result.1 pass.result.2
    | none => none

/-- Per-key concurrency skeleton for single-flight. For one fixed key:
`present` — the key has an entry in the map; `working` — that entry's
working flag; `gens` — the number of generator goroutines currently
running for the key. Steps are the write-lock critical sections of the
source, the only places generators start or finish: `createCacheItem`
(hit and miss arms), `updateCacheItem` (hit and spawn arms), `write`
(executed by the running generator, hence `1 ≤ gens`), and eviction by
`purgeExpiredItems` (which requires `!working`). `Get`, `GetWithOpts` and
`Set` invoke generators only through these sections. -/
structure KState where
  present : Bool
  working : Bool
  gens : Nat
deriving DecidableEq, Repr

/-- Interleaved transitions of one key's entry; see `KState`. -/
inductive KStep : KState → KState → Prop
  | createHit (s : KState) (hp : s.present = true) (hw : s.working = true) :
      KStep s s
  | createNew (s : KState) (h : ¬(s.present = true ∧ s.working = true)) :
      KStep s ⟨true, true, s.gens + 1⟩
  | updateHit (s : KState) (hp : s.present = true) (hw : s.working = true) :
      KStep s s
  | updateSpawn (s : KState) (hp : s.present = true) (hw : s.working = false) :
      KStep s ⟨true, true, s.gens + 1⟩
  | writeDone (s : KState) (h : 1 ≤ s.gens) :
      KStep s ⟨s.present, false, s.gens - 1⟩
  | purge (s : KState) (hw : s.working = false) :
      KStep s ⟨false, s.working, s.gens⟩

/-- No entry, no generator: the state of a key never touched. -/
def kInit : KState := ⟨false, false, 0⟩

/-- Key states reachable from `kInit` by interleaved critical sections. -/
inductive KReach : KState → Prop
  | refl : KReach kInit
  | tail {s s' : KState} : KReach s → KStep s s' → KReach s'

/-- `expires ≤ banned` for a single item. -/
def ItemInv (it : Item T) : Prop := it.expires ≤ it.banned

/-- `expires ≤ banned` for every entry of the cache. -/
def StateInv (c : CacheState T) : Prop := ∀ kv ∈ c.items, ItemInv kv.2

/-- Sequential-interleaving steps of a cache: any `getWithOpts` call, any
critical section of `createCacheItem` or `updateCacheItem` (through which
`SetWithOpts` also acts), and the completion `write` of any pass whose
TTL and grace are non-negative (including its piggy-backed GC sweep). -/
inductive CacheStep {T : Type} [Inhabited T] : CacheState T → CacheState T → Prop
  | getS (c : CacheState T) (opts : GetOpts T) (now : Int)
      (r : GetStep T) (c' : CacheState T) (p : Option (Pass T))
      (h : getWithOpts c opts now = some (r, c', p)) :
      CacheStep c c'
  | createS (c : CacheState T) (opts : GetOpts T) :
      CacheStep c (createCacheItem c opts).2.1
  | updateS (c : CacheState T) (opts : GetOpts T)
      (c' : CacheState T) (p : Option (Pass T))
      (h : updateCacheItem c opts = some (c', p)) :
      CacheStep c c'
  | writeS (c : CacheState T) (key : Key) (ttl grace now : Int)
      (d : T) (e : Option Err) (c' : CacheState T) (it : Item T)
      (httl : 0 ≤ ttl) (hgrace : 0 ≤ grace)
      (h : write c key ttl grace now d e = some (c', it)) :
      CacheStep c c'

/-- Cache states reachable from a freshly constructed cache. -/
inductive CacheReach {T : Type} [Inhabited T] (c0 : CacheState T) : CacheState T → Prop
  | refl : CacheReach c0 c0
  | tail {c c' : CacheState T} : CacheReach c0 c → CacheStep c c' → CacheReach c0 c'

end Cache

namespace Workerpool

abbrev Err := String

/-- `WorkerPool` (src/workerpool/workerpool.go). `capacity` is the buffer
size of the slot channel `queue`; `active` the number of slots in use
(buffered sends minus receives); `inflight` the `sync.WaitGroup` counter. -/
structure PoolState where
  capacity : Nat
  inflight : Nat
  active : Nat
  errors : List Err
  closed : Bool
deriving DecidableEq, Repr

/-- `New` (src/workerpool/workerpool.go:25-30). -/
def newPool (concurrency : Nat) : PoolState :=
  { capacity := concurrency, inflight := 0, active := 0, errors := [], closed := false }

/-- The completion callback `done(err)` built by `Submit`
(src/workerpool/workerpool.go:42-58): decrement the in-flight counter
first; then, unless the pool is closed, release one slot and record a
non-nil error. -/
def done (s : PoolState) (err : Option Err) : PoolState :=
  let s1 := { s with inflight := s.inflight - 1 }
  if s1.closed then s1
  else
    { s1 with
      active := s1.active - 1
      errors := match err with
        | some e => s1.errors ++ [e]
        | none => s1.errors }

/-- Interleaving steps of a worker pool. `acquire` is the slot acquisition
inside `Submit` (`p.wg.Add(1); p.queue <- struct{}{}`): the buffered send
proceeds only while fewer than `capacity` slots are occupied. `finishOpen`
and `finishClosed` are invocations of `done` (a receive on a non-empty
queue in the open case). `closeStep` is `Close`. -/
inductive PoolStep : PoolState → PoolState → Prop
  | acquire (s : PoolState) (h : s.active < s.capacity) (hc : s.closed = false) :
      PoolStep s { s with inflight := s.inflight + 1, active := s.active + 1 }
  | finishOpen (s : PoolState) (err : Option Err)
      (hc : s.closed = false) (h : 1 ≤ s.active) :
      PoolStep s (done s err)
  | finishClosed (s : PoolState) (err : Option Err) (hc : s.closed = true) :
      PoolStep s (done s err)
  | closeStep (s : PoolState) :
      PoolStep s { s with closed := true }

/-- Pool states reachable from `newPool n` by pool steps. -/
inductive PoolReach (n : Nat) : PoolState → Prop
  | refl : PoolReach n (newPool n)
  | tail {s s' : PoolState} : PoolReach n s → PoolStep s s' → PoolReach n s'

end Workerpool

namespace Cache

theorem lookupItem_mem {α : Type} {l : List (Key × α)} {k : Key} {v : α}
    (h : lookupItem l k = some v) : (k, v) ∈ l := by
  induction l with
  | nil => simp [lookupItem] at h
  | cons kv rest ih =>
    unfold lookupItem at h
    by_cases hk : kv.1 = k
    · rw [if_pos hk] at h
      injection h with h
      have hkv : (k, v) = kv := by
        rw [← hk, ← h]
      rw [hkv]
      exact List.mem_cons_self _ _
    · rw [if_neg hk] at h
      exact List.mem_cons_of_mem _ (ih h)

theorem mem_setItem {α : Type} {l : List (Key × α)} {k : Key} {v : α} {kv : Key × α}
    (h : kv ∈ setItem l k v) : kv = (k, v) ∨ kv ∈ l := by
  induction l with
  | nil => simp [setItem] at h; left; exact h
  | cons kv0 rest ih =>
    unfold setItem at h
    by_cases hk : kv0.1 = k
    · rw [if_pos hk] at h
      rcases List.mem_cons.mp h with h | h
      · left; exact h
      · right; exact List.mem_cons_of_mem _ h
    · rw [if_neg hk] at h
      rcases List.mem_cons.mp h with h | h
      · right; exact h ▸ List.mem_cons_self _ _
      · rcases ih h with h | h
        · left; exact h
        · right; exact List.mem_cons_of_mem _ h

theorem lookupItem_setItem_self {α : Type} (l : List (Key × α)) (k : Key) (v : α) :
    lookupItem (setItem l k v) k = some v := by
  induction l with
  | nil => simp [setItem, lookupItem]
  | cons kv rest ih =>
    unfold setItem
    by_cases hk : kv.1 = k
    · rw [if_pos hk]
      simp [lookupItem]
    · rw [if_neg hk]
      unfold lookupItem
      rw [if_neg hk]
      exact ih

/-- The single-flight invariant: a working entry is present, and the
number of running generators for the key is one while `working` is set
and zero otherwise. -/
def KInv (s : KState) : Prop :=
  (s.working = true → s.present = true) ∧ s.gens = (if s.working = true then 1 else 0)

theorem kReach_inv {s : KState} (h : KReach s) : KInv s := by
  induction h with
  | refl => simp [KInv, kInit]
  | tail _ hstep ih =>
    obtain ⟨ihp, ihg⟩ := ih
    rename_i s s' _
    cases hstep with
    | createHit hp hw => exact ⟨ihp, ihg⟩
    | createNew hne =>
      refine ⟨fun _ => rfl, ?_⟩
      have hw : s.working = false := by
        by_contra hw
        rw [Bool.not_eq_false] at hw
        exact hne ⟨ihp hw, hw⟩
      simp only [hw] at ihg
      simp [KInv, ihg]
    | updateHit hp hw => exact ⟨ihp, ihg⟩
    | updateSpawn hp hw =>
      refine ⟨fun _ => rfl, ?_⟩
      simp only [hw] at ihg
      simp [ihg]
    | writeDone hg =>
      refine ⟨fun hc => by simp at hc, ?_⟩
      have hw : s.working = true := by
        by_contra hw
        rw [Bool.not_eq_true] at hw
        simp only [hw] at ihg
        simp at ihg
        omega
      simp only [hw] at ihg
      simp at ihg
      simp [ihg]
    | purge hw =>
      refine ⟨fun hc => by simp [hw] at hc, ?_⟩
      simp only [hw] at ihg
      simp [hw, ihg]

/-- C1: at most one generator runs concurrently per key — in every
reachable state of the per-key model the number of running generator
goroutines is at most one, and no step taken while a generator is
running (`working = true`) starts another one: `createCacheItem` and
`updateCacheItem` both re-check the working flag under the write lock and
decline to spawn. -/
theorem claim_C1_single_flight {s : KState} (h : KReach s) :
    s.gens ≤ 1 ∧ ∀ s', KStep s s' → s.working = true → s'.gens ≤ s.gens := by
  obtain ⟨hp, hg⟩ := kReach_inv h
  constructor
  · rw [hg]; split <;> omega
  · intro s' hstep hw
    cases hstep with
    | createHit => exact Nat.le_refl _
    | createNew hne => exact absurd ⟨hp hw, hw⟩ hne
    | updateHit => exact Nat.le_refl _
    | updateSpawn hp2 hw2 => rw [hw] at hw2; cases hw2
    | writeDone hgen => simp
    | purge hw2 => exact Nat.le_refl _

/-- `write` always produces `some` when the key is present. -/
theorem write_some {T : Type} {c : CacheState T} {key : Key} {item : Item T}
    (hl : lookupItem c.items key = some item) (ttl grace now : Int) (d : T)
    (e : Option Err) : ∃ r, write c key ttl grace now d e = some r := by
  simp only [write, hl]
  split
  · exact ⟨_, rfl⟩
  · exact ⟨_, rfl⟩

/-- The item a waiter's pointer refers to after `write` carries exactly
the pass's data and error, `working` cleared, and the refreshed
timestamps. -/
theorem write_item_eq {T : Type} {c : CacheState T} {key : Key}
    {ttl grace now : Int} {d : T} {e : Option Err} {c' : CacheState T} {it : Item T}
    (h : write c key ttl grace now d e = some (c', it)) :
    it.data = d ∧ it.err = e ∧ it.working = false ∧
      it.created = now ∧ it.expires = now + ttl ∧ it.banned = now + ttl + grace := by
  cases hl : lookupItem c.items key with
  | none => simp only [write, hl] at h; cases h
  | some item =>
    simp only [write, hl] at h
    split at h <;>
    · simp only [Option.some.injEq, Prod.mk.injEq] at h
      rw [← h.2]
      simp

/-- Witness for C1: the state after a single `createCacheItem` miss,
with its one running generator, is reachable and satisfies the bound. -/
theorem claim_C1_witness :
    (⟨true, true, 1⟩ : KState).gens ≤ 1 ∧
      ∀ s', KStep ⟨true, true, 1⟩ s' → (⟨true, true, 1⟩ : KState).working = true →
        s'.gens ≤ (⟨true, true, 1⟩ : KState).gens :=
  claim_C1_single_flight
    (KReach.tail KReach.refl (KStep.createNew kInit (by simp [kInit])))

/-- In a map with duplicate-free keys, two entries with the same key are
the same entry. -/
theorem keyUnique {α : Type} {l : List (Key × α)}
    (hnd : (l.map Prod.fst).Nodup) {kv kv' : Key × α}
    (h1 : kv ∈ l) (h2 : kv' ∈ l) (hk : kv.1 = kv'.1) : kv = kv' := by
  induction l with
  | nil => cases h1
  | cons a t ih =>
    rw [List.map_cons, List.nodup_cons] at hnd
    rcases List.mem_cons.mp h1 with h1 | h1 <;>
      rcases List.mem_cons.mp h2 with h2 | h2
    · rw [h1, h2]
    · exact absurd (by rw [← h1, hk]; exact List.mem_map_of_mem Prod.fst h2) hnd.1
    · exact absurd (by rw [← h2, ← hk]; exact List.mem_map_of_mem Prod.fst h1) hnd.1
    · exact ih hnd.2 h1 h2

/-- `setItem` keeps keys duplicate-free. -/
theorem nodup_setItem {α : Type} {l : List (Key × α)} (k : Key) (v : α)
    (hnd : (l.map Prod.fst).Nodup) : ((setItem l k v).map Prod.fst).Nodup := by
  induction l with
  | nil => simp [setItem]
  | cons a t ih =>
    rw [List.map_cons, List.nodup_cons] at hnd
    unfold setItem
    by_cases hk : a.1 = k
    · rw [if_pos hk, List.map_cons, List.nodup_cons]
      exact ⟨by rw [← hk]; exact hnd.1, hnd.2⟩
    · rw [if_neg hk, List.map_cons, List.nodup_cons]
      refine ⟨?_, ih hnd.2⟩
      intro hmem
      rcases List.mem_map.mp hmem with ⟨kv, hkv, hfst⟩
      rcases mem_setItem hkv with h | h
      · rw [h] at hfst; exact hk hfst.symm
      · exact hnd.1 (hfst ▸ List.mem_map_of_mem Prod.fst h)

/-- Filtering keeps a looked-up binding whose entry survives the filter:
the first entry with a given key is also first in the filtered list. -/
theorem lookupItem_filter {α : Type} {l : List (Key × α)} {k : Key} {v : α}
    (p : Key × α → Bool)
    (hl : lookupItem l k = some v) (hp : p (k, v) = true) :
    lookupItem (l.filter p) k = some v := by
  induction l with
  | nil => simp [lookupItem] at hl
  | cons kv t ih =>
    unfold lookupItem at hl
    by_cases hk : kv.1 = k
    · rw [if_pos hk] at hl
      injection hl with hl
      have hkv : kv = (k, v) := by
        rw [← hk, ← hl]
      rw [hkv, List.filter_cons, if_pos hp]
      simp [lookupItem]
    · rw [if_neg hk] at hl
      rw [List.filter_cons]
      split
      · unfold lookupItem
        rw [if_neg hk]
        exact ih hl
      · exact ih hl

/-- A GC sweep keeps a looked-up binding whose item is not eligible for
eviction (keys duplicate-free). -/
theorem lookupItem_purge {T : Type} {items : List (Key × Item T)} {k : Key}
    {v : Item T} (now : Int) (hnd : (items.map Prod.fst).Nodup)
    (hl : lookupItem items k = some v) (hc : purgeCond now v = false) :
    lookupItem (purgeExpiredItems now items).1 k = some v := by
  apply lookupItem_filter _ hl
  simp only [Bool.not_eq_true']
  refine Bool.eq_false_iff.mpr (fun hcontains => ?_)
  have hmem : k ∈ (List.filter (fun kv => purgeCond now kv.2) items).map Prod.fst := by
    simpa using hcontains
  rcases List.mem_map.mp hmem with ⟨kv, hkv, hfst⟩
  have hkvmem : kv ∈ items := (List.mem_filter.mp hkv).1
  have hcond : purgeCond now kv.2 = true := (List.mem_filter.mp hkv).2
  have : kv = (k, v) := keyUnique hnd hkvmem (lookupItem_mem hl) hfst
  rw [this] at hcond
  rw [hc] at hcond
  cases hcond

/-- After a successful `write` whose item is not immediately evictable
(`now < banned`), the written item is the entry at its key. -/
theorem write_lookup {T : Type} {c : CacheState T} {key : Key}
    {ttl grace now : Int} {d : T} {e : Option Err} {c' : CacheState T} {it : Item T}
    (hnd : (c.items.map Prod.fst).Nodup)
    (hb : now < now + ttl + grace)
    (h : write c key ttl grace now d e = some (c', it)) :
    lookupItem c'.items key = some it := by
  cases hl : lookupItem c.items key with
  | none => simp only [write, hl] at h; cases h
  | some item =>
    simp only [write, hl] at h
    split at h <;> simp only [Option.some.injEq, Prod.mk.injEq] at h <;>
      obtain ⟨h1, h2⟩ := h <;> rw [← h1, ← h2]
    · exact lookupItem_purge now (nodup_setItem key _ hnd)
        (lookupItem_setItem_self _ _ _)
        (by simp [purgeCond, decide_eq_false (not_le.mpr hb)])
    · exact lookupItem_setItem_self _ _ _

/-- A fresh hit returns the stored data without touching the cache. -/
theorem getWithOpts_fresh {T : Type} [Inhabited T] {c : CacheState T}
    {opts : GetOpts T} {now : Int} {item : Item T}
    (hl : lookupItem c.items opts.key = some item)
    (he : item.err = none) (h1 : now < item.expires) :
    getWithOpts c opts now = some (.ret item.data none, c, none) := by
  simp only [getWithOpts, hl]
  rw [if_pos ⟨he, h1⟩]

/-- C2: a fresh hit (`err` absent, `now < expires`) returns the stored
data with a nil error, spawns no generator (the generator is not
invoked), and leaves the cache unchanged; consequently a second call for
the same key within the TTL — with any generator — returns the same
value. -/
theorem claim_C2_fresh_hit {T : Type} [Inhabited T] (c : CacheState T)
    (opts opts2 : GetOpts T) (now now2 : Int) (item : Item T)
    (hl : lookupItem c.items opts.key = some item)
    (he : item.err = none)
    (h1 : now < item.expires)
    (hk : opts2.key = opts.key)
    (h2 : now2 < item.expires) :
    getWithOpts c opts now = some (.ret item.data none, c, none) ∧
      getWithOpts c opts2 now2 = some (.ret item.data none, c, none) := by
  constructor
  · simp only [getWithOpts, hl]
    rw [if_pos ⟨he, h1⟩]
  · simp only [getWithOpts, hk, hl]
    rw [if_pos ⟨he, h2⟩]

/-- Witness state for C2: one clean entry `"k"` expiring at 10. -/
def cacheW2 : CacheState String :=
  { defaultTTL := 0, defaultGrace := 0, gcInterval := 3600 * 1000000000,
    lastGcTime := 0,
    items := [("k", ⟨"v", none, false, 0, 0, 10, 10⟩)],
    readyCtr := 0 }

theorem claim_C2_witness :
    getWithOpts cacheW2 ⟨"k", 5, 0, ("g1", none)⟩ 3 =
        some (.ret "v" none, cacheW2, none) ∧
      getWithOpts cacheW2 ⟨"k", 5, 0, ("g2", none)⟩ 4 =
        some (.ret "v" none, cacheW2, none) :=
  claim_C2_fresh_hit cacheW2 ⟨"k", 5, 0, ("g1", none)⟩ ⟨"k", 5, 0, ("g2", none)⟩
    3 4 ⟨"v", none, false, 0, 0, 10, 10⟩ (by decide) rfl (by decide) rfl (by decide)

/-- C3: a grace hit (`err` absent, `expires ≤ now < banned`) returns the
stale data immediately (a `.ret`, not a `.wait`) with a nil error. If the
item is already working no generator is started and the state is
unchanged; otherwise one generator pass is spawned, the item's working
flag is set, and a fresh ready handle — distinct from the previous one —
is allocated. -/
theorem claim_C3_grace_hit {T : Type} [Inhabited T] (c : CacheState T)
    (opts : GetOpts T) (now : Int) (item : Item T)
    (hl : lookupItem c.items opts.key = some item)
    (he : item.err = none)
    (hst : item.expires ≤ now)
    (hb : now < item.banned)
    (hctr : item.readyGen ≤ c.readyCtr) :
    (item.working = true →
      getWithOpts c opts now = some (.ret item.data none, c, none)) ∧
    (item.working = false →
      getWithOpts c opts now =
          some (.ret item.data none,
            { c with
                items := setItem c.items opts.key
                  { item with working := true, readyGen := c.readyCtr + 1 }
                readyCtr := c.readyCtr + 1 },
            some ⟨opts.key, opts.ttl, opts.grace, opts.gen⟩) ∧
        c.readyCtr + 1 ≠ item.readyGen) := by
  have hnotfresh : ¬(item.err = none ∧ now < item.expires) := by
    rintro ⟨-, hlt⟩
    exact absurd hlt (not_lt.mpr hst)
  constructor
  · intro hw
    simp only [getWithOpts, hl]
    rw [if_neg hnotfresh, if_pos ⟨he, hb⟩, if_pos hw]
  · intro hw
    refine ⟨?_, by omega⟩
    simp only [getWithOpts, hl]
    rw [if_neg hnotfresh, if_pos ⟨he, hb⟩, if_neg (by simp [hw])]
    simp only [updateCacheItem, hl, hw]
    rw [if_neg (by simp)]
    rfl

/-- Witness state for C3: one clean entry `"k"`, expired at 10 but in
grace until 20, not working, ready handle number 1. -/
def cacheW3 : CacheState String :=
  { defaultTTL := 0, defaultGrace := 0, gcInterval := 3600 * 1000000000,
    lastGcTime := 0,
    items := [("k", ⟨"v", none, false, 1, 0, 10, 20⟩)],
    readyCtr := 1 }

theorem claim_C3_witness :
    ((⟨"v", none, false, 1, 0, 10, 20⟩ : Item String).working = true →
      getWithOpts cacheW3 ⟨"k", 7, 3, ("g", none)⟩ 15 =
        some (.ret "v" none, cacheW3, none)) ∧
    ((⟨"v", none, false, 1, 0, 10, 20⟩ : Item String).working = false →
      getWithOpts cacheW3 ⟨"k", 7, 3, ("g", none)⟩ 15 =
          some (.ret "v" none,
            { cacheW3 with
                items := setItem cacheW3.items "k"
                  { (⟨"v", none, false, 1, 0, 10, 20⟩ : Item String) with
                      working := true, readyGen := cacheW3.readyCtr + 1 }
                readyCtr := cacheW3.readyCtr + 1 },
            some ⟨"k", 7, 3, ("g", none)⟩) ∧
        cacheW3.readyCtr + 1 ≠ (⟨"v", none, false, 1, 0, 10, 20⟩ : Item String).readyGen) :=
  claim_C3_grace_hit cacheW3 ⟨"k", 7, 3, ("g", none)⟩ 15
    ⟨"v", none, false, 1, 0, 10, 20⟩ (by decide) rfl (by decide) (by decide) (by decide)

/-- C4: when the stored entry holds an error, the stale data is never
returned: the caller takes the wait path. If a generator is already
running, none is started and the caller waits on the running pass — whose
completing `write` hands every waiter exactly the pass's `(data, err)`.
If none is running, `createCacheItem` replaces the entry by a fresh
working placeholder and spawns a pass running the supplied generator, and
the completing `write` of that pass hands the caller the generator's
`(data, err)`. -/
theorem claim_C4_error_forces_wait {T : Type} [Inhabited T] (c : CacheState T)
    (opts : GetOpts T) (now : Int) (item : Item T)
    (hl : lookupItem c.items opts.key = some item)
    (he : item.err ≠ none) :
    (item.working = true →
      getWithOpts c opts now = some (.wait item, c, none) ∧
        ∀ ttl2 grace2 nowW d e r, write c opts.key ttl2 grace2 nowW d e = some r →
          r.2.data = d ∧ r.2.err = e) ∧
    (item.working = false →
      getWithOpts c opts now =
          some (.wait (⟨default, none, true, c.readyCtr + 1, 0, 0, 0⟩ : Item T),
            { c with
                items := setItem c.items opts.key
                  ⟨default, none, true, c.readyCtr + 1, 0, 0, 0⟩
                readyCtr := c.readyCtr + 1 },
            some ⟨opts.key, opts.ttl, opts.grace, opts.gen⟩) ∧
        (∀ nowW, ∃ r,
          write
            { c with
                items := setItem c.items opts.key
                  ⟨default, none, true, c.readyCtr + 1, 0, 0, 0⟩
                readyCtr := c.readyCtr + 1 }
            opts.key opts.ttl opts.grace nowW opts.gen.1 opts.gen.2 = some r ∧
          r.2.data = opts.gen.1 ∧ r.2.err = opts.gen.2)) := by
  have hnot1 : ¬(item.err = none ∧ now < item.expires) := by
    rintro ⟨h0, -⟩
    exact he h0
  have hnot2 : ¬(item.err = none ∧ now < item.banned) := by
    rintro ⟨h0, -⟩
    exact he h0
  constructor
  · intro hw
    refine ⟨?_, ?_⟩
    · simp only [getWithOpts, hl]
      rw [if_neg hnot1, if_neg hnot2, if_pos hw]
    · intro ttl2 grace2 nowW d e r hwr
      obtain ⟨rc, rit⟩ := r
      have hfields := write_item_eq hwr
      exact ⟨hfields.1, hfields.2.1⟩
  · intro hw
    constructor
    · simp only [getWithOpts, hl]
      rw [if_neg hnot1, if_neg hnot2, if_neg (by simp [hw])]
      simp only [createCacheItem, hl, hw]
      rw [if_neg (by simp)]
    · intro nowW
      have hself :
          lookupItem
            ({ c with
                items := setItem c.items opts.key
                  (⟨default, none, true, c.readyCtr + 1, 0, 0, 0⟩ : Item T)
                readyCtr := c.readyCtr + 1 } : CacheState T).items opts.key =
            some ⟨default, none, true, c.readyCtr + 1, 0, 0, 0⟩ :=
        lookupItem_setItem_self _ _ _
      obtain ⟨r, hr⟩ := write_some hself opts.ttl opts.grace nowW opts.gen.1 opts.gen.2
      obtain ⟨rc, rit⟩ := r
      have hfields := write_item_eq hr
      exact ⟨(rc, rit), hr, hfields.1, hfields.2.1⟩

/-- C5 (amended): when no generator pass is in flight for the key and
the supplied TTL is positive (with non-negative grace), `setWithOpts`
spawns a pass writing the supplied value and returns only after that
pass's `write` has run (in the model, `setWithOpts`'s result is by
construction the post-`write` state); afterwards the entry holds the
value with no stored error, and a `getWithOpts` at the same instant —
with any generator — returns the value as a fresh hit without invoking
the generator. The claim as frozen omits the TTL condition; the
counterexample shows it fails for TTL = 0. -/
theorem claim_C5_set_visibility {T : Type} [Inhabited T] (c : CacheState T)
    (opts : SetOpts T) (nowW : Int)
    (hnd : (c.items.map Prod.fst).Nodup)
    (hq : ∀ it, lookupItem c.items opts.key = some it → it.working = false)
    (httl : 0 < opts.ttl) (hgr : 0 ≤ opts.grace) :
    ∃ r, setWithOpts c opts nowW = some r ∧
      lookupItem r.1.items opts.key = some r.2 ∧
      r.2.data = opts.data ∧ r.2.err = none ∧
      ∀ (gen2 : T × Option Err) (ttl2 grace2 : Int),
        getWithOpts r.1 ⟨opts.key, ttl2, grace2, gen2⟩ nowW =
          some (.ret opts.data none, r.1, none) := by
  have hb : nowW < nowW + opts.ttl + opts.grace := by omega
  cases hl : lookupItem c.items opts.key with
  | some item =>
    have hw : item.working = false := hq item hl
    have hupd :
        updateCacheItem c ⟨opts.key, opts.ttl, opts.grace, (opts.data, none)⟩ =
          some
            ({ c with
                items := setItem c.items opts.key
                  { item with working := true, readyGen := c.readyCtr + 1 }
                readyCtr := c.readyCtr + 1 },
              some ⟨opts.key, opts.ttl, opts.grace, (opts.data, none)⟩) := by
      simp only [updateCacheItem, hl, hw]
      rw [if_neg (by simp)]
    have hnd1 :
        ((setItem c.items opts.key
            { item with working := true, readyGen := c.readyCtr + 1 }).map
          Prod.fst).Nodup := nodup_setItem _ _ hnd
    have hself :
        lookupItem
          ({ c with
              items := setItem c.items opts.key
                { item with working := true, readyGen := c.readyCtr + 1 }
              readyCtr := c.readyCtr + 1 } : CacheState T).items opts.key =
          some { item with working := true, readyGen := c.readyCtr + 1 } :=
      lookupItem_setItem_self _ _ _
    obtain ⟨r, hr⟩ := write_some hself opts.ttl opts.grace nowW opts.data none
    obtain ⟨rc, rit⟩ := r
    have hfields := write_item_eq hr
    have hrl := write_lookup hnd1 hb hr
    refine ⟨(rc, rit), ?_, hrl, hfields.1, hfields.2.1, ?_⟩
    · simp only [setWithOpts, hl, hupd, Option.bind_some]
      exact hr
    · intro gen2 ttl2 grace2
      have hexp : nowW < rit.expires := by
        rw [hfields.2.2.2.2.1]; omega
      have := @getWithOpts_fresh T _ rc ⟨opts.key, ttl2, grace2, gen2⟩ nowW rit
        hrl hfields.2.1 hexp
      rw [this, hfields.1]
  | none =>
    have hcreate :
        createCacheItem c ⟨opts.key, opts.ttl, opts.grace, (opts.data, none)⟩ =
          ((⟨default, none, true, c.readyCtr + 1, 0, 0, 0⟩ : Item T),
            { c with
                items := setItem c.items opts.key
                  ⟨default, none, true, c.readyCtr + 1, 0, 0, 0⟩
                readyCtr := c.readyCtr + 1 },
            some ⟨opts.key, opts.ttl, opts.grace, (opts.data, none)⟩) := by
      simp only [createCacheItem, hl]
    have hnd1 :
        ((setItem c.items opts.key
            (⟨default, none, true, c.readyCtr + 1, 0, 0, 0⟩ : Item T)).map
          Prod.fst).Nodup := nodup_setItem _ _ hnd
    have hself :
        lookupItem
          ({ c with
              items := setItem c.items opts.key
                (⟨default, none, true, c.readyCtr + 1, 0, 0, 0⟩ : Item T)
              readyCtr := c.readyCtr + 1 } : CacheState T).items opts.key =
          some ⟨default, none, true, c.readyCtr + 1, 0, 0, 0⟩ :=
      lookupItem_setItem_self _ _ _
    obtain ⟨r, hr⟩ := write_some hself opts.ttl opts.grace nowW opts.data none
    obtain ⟨rc, rit⟩ := r
    have hfields := write_item_eq hr
    have hrl := write_lookup hnd1 hb hr
    refine ⟨(rc, rit), ?_, hrl, hfields.1, hfields.2.1, ?_⟩
    · simp only [setWithOpts, hl, hcreate]
      exact hr
    · intro gen2 ttl2 grace2
      have hexp : nowW < rit.expires := by
        rw [hfields.2.2.2.2.1]; omega
      have := @getWithOpts_fresh T _ rc ⟨opts.key, ttl2, grace2, gen2⟩ nowW rit
        hrl hfields.2.1 hexp
      rw [this, hfields.1]

/-- Counterexample to C5 as frozen: on a fresh cache, complete a
`SetWithOpts` of `"v"` under TTL 0 and grace 0 at instant 5; the
immediately following `GetWithOpts` at the same instant does not return
`"v"`: the entry is already expired and out of grace, so the call spawns
a pass running `other_gen` (the generator IS invoked) and waits on it. -/
theorem claim_C5_counterexample :
    setWithOpts
        (⟨0, 0, 3600 * 1000000000, 0, [], 0⟩ : CacheState String)
        ⟨"k", 0, 0, "v"⟩ 5 =
      some (⟨0, 0, 3600 * 1000000000, 0, [("k", ⟨"v", none, false, 1, 5, 5, 5⟩)], 1⟩,
        ⟨"v", none, false, 1, 5, 5, 5⟩) ∧
    getWithOpts
        (⟨0, 0, 3600 * 1000000000, 0, [("k", ⟨"v", none, false, 1, 5, 5, 5⟩)], 1⟩ :
          CacheState String)
        ⟨"k", 0, 0, ("other", none)⟩ 5 =
      some (.wait ⟨"", none, true, 2, 0, 0, 0⟩,
        ⟨0, 0, 3600 * 1000000000, 0, [("k", ⟨"", none, true, 2, 0, 0, 0⟩)], 2⟩,
        some ⟨"k", 0, 0, ("other", none)⟩) := by
  constructor
  · rfl
  · rfl

/-- Witness for C5 (amended): a concrete set of `"v"` with TTL 7 on a
fresh cache, followed by a get at the same instant. -/
theorem claim_C5_witness :
    ∃ r,
      setWithOpts (⟨0, 0, 3600 * 1000000000, 0, [], 0⟩ : CacheState String)
          ⟨"k", 7, 2, "v"⟩ 5 = some r ∧
        lookupItem r.1.items "k" = some r.2 ∧
        r.2.data = "v" ∧ r.2.err = none ∧
        ∀ (gen2 : String × Option Err) (ttl2 grace2 : Int),
          getWithOpts r.1 ⟨"k", ttl2, grace2, gen2⟩ 5 =
            some (.ret "v" none, r.1, none) :=
  claim_C5_set_visibility (⟨0, 0, 3600 * 1000000000, 0, [], 0⟩ : CacheState String)
    ⟨"k", 7, 2, "v"⟩ 5 (by simp) (by intro it h; cases h) (by decide) (by decide)

/-- Witness state for C4: entry `"k"` holds a stored error and is not
working. -/
def cacheW4 : CacheState String :=
  { defaultTTL := 0, defaultGrace := 0, gcInterval := 3600 * 1000000000,
    lastGcTime := 0,
    items := [("k", ⟨"old", some "oops", false, 1, 0, 10, 20⟩)],
    readyCtr := 1 }

theorem stateInv_setItem {T : Type} {l : List (Key × Item T)} {k : Key}
    {v : Item T} (hl : ∀ kv ∈ l, ItemInv kv.2) (hv : ItemInv v) :
    ∀ kv ∈ setItem l k v, ItemInv kv.2 := by
  intro kv hkv
  rcases mem_setItem hkv with h | h
  · rw [h]; exact hv
  · exact hl kv h

theorem stateInv_create {T : Type} [Inhabited T] {c : CacheState T}
    (opts : GetOpts T) (hinv : StateInv c) :
    StateInv (createCacheItem c opts).2.1 := by
  cases hl : lookupItem c.items opts.key with
  | some item =>
    by_cases hw : item.working = true
    · simp only [createCacheItem, hl, hw, if_pos]
      exact hinv
    · rw [Bool.not_eq_true] at hw
      simp only [createCacheItem, hl, hw]
      rw [if_neg (by simp)]
      exact stateInv_setItem hinv (by exact le_refl 0)
  | none =>
    simp only [createCacheItem, hl]
    exact stateInv_setItem hinv (by exact le_refl 0)

theorem stateInv_update {T : Type} {c : CacheState T} {opts : GetOpts T}
    {c' : CacheState T} {p : Option (Pass T)}
    (h : updateCacheItem c opts = some (c', p)) (hinv : StateInv c) :
    StateInv c' := by
  cases hl : lookupItem c.items opts.key with
  | none => simp only [updateCacheItem, hl] at h; cases h
  | some item =>
    by_cases hw : item.working = true
    · simp only [updateCacheItem, hl, hw, if_pos] at h
      simp only [Option.some.injEq, Prod.mk.injEq] at h
      rw [← h.1]
      exact hinv
    · rw [Bool.not_eq_true] at hw
      simp only [updateCacheItem, hl, hw] at h
      rw [if_neg (by simp)] at h
      simp only [Option.some.injEq, Prod.mk.injEq] at h
      rw [← h.1]
      exact stateInv_setItem hinv (hinv _ (lookupItem_mem hl))

theorem stateInv_write {T : Type} {c : CacheState T} {key : Key}
    {ttl grace now : Int} {d : T} {e : Option Err} {c' : CacheState T}
    {it : Item T} (hgr : 0 ≤ grace)
    (h : write c key ttl grace now d e = some (c', it)) (hinv : StateInv c) :
    StateInv c' := by
  cases hl : lookupItem c.items key with
  | none => simp only [write, hl] at h; cases h
  | some item =>
    simp only [write, hl] at h
    split at h <;> simp only [Option.some.injEq, Prod.mk.injEq] at h <;>
      obtain ⟨h1, h2⟩ := h <;> rw [← h1] <;> intro kv hkv
    · simp only [purgeExpiredItems] at hkv
      rcases mem_setItem (List.mem_of_mem_filter hkv) with hh | hh
      · rw [hh]
        show now + ttl ≤ now + ttl + grace
        omega
      · exact hinv kv hh
    · rcases mem_setItem hkv with hh | hh
      · rw [hh]
        show now + ttl ≤ now + ttl + grace
        omega
      · exact hinv kv hh

theorem stateInv_get {T : Type} [Inhabited T] {c : CacheState T}
    {opts : GetOpts T} {now : Int} {r : GetStep T} {c' : CacheState T}
    {p : Option (Pass T)}
    (h : getWithOpts c opts now = some (r, c', p)) (hinv : StateInv c) :
    StateInv c' := by
  cases hl : lookupItem c.items opts.key with
  | none =>
    simp only [getWithOpts, hl] at h
    simp only [Option.some.injEq, Prod.mk.injEq] at h
    rw [← h.2.1]
    exact stateInv_create opts hinv
  | some item =>
    simp only [getWithOpts, hl] at h
    split at h
    · simp only [Option.some.injEq, Prod.mk.injEq] at h
      rw [← h.2.1]
      exact hinv
    · split at h
      · split at h
        · simp only [Option.some.injEq, Prod.mk.injEq] at h
          rw [← h.2.1]
          exact hinv
        · cases hu : updateCacheItem c opts with
          | none => rw [hu] at h; cases h
          | some u =>
            rw [hu] at h
            have h2 : (⟨GetStep.ret item.data none, u.1, u.2⟩ :
                GetStep T × CacheState T × Option (Pass T)) = (r, c', p) := by
              injection h
            injection h2 with hr h2
            injection h2 with hc hp
            rw [← hc]
            exact stateInv_update hu hinv
      · split at h
        · simp only [Option.some.injEq, Prod.mk.injEq] at h
          rw [← h.2.1]
          exact hinv
        · simp only [Option.some.injEq, Prod.mk.injEq] at h
          rw [← h.2.1]
          exact stateInv_create opts hinv

theorem cacheStep_inv {T : Type} [Inhabited T] {c c' : CacheState T}
    (h : CacheStep c c') (hinv : StateInv c) : StateInv c' := by
  cases h with
  | getS opts now r c2 p hg => exact stateInv_get hg hinv
  | createS opts => exact stateInv_create opts hinv
  | updateS opts c2 p hu => exact stateInv_update hu hinv
  | writeS key ttl grace now d e c2 it httl hgr hw => exact stateInv_write hgr hw hinv

/-- C7: `expires ≤ banned` holds for every item of every reachable cache
state, the non-negativity of TTL and grace being demanded of every
completing write; moreover `write` stamps `created = now`,
`expires = now + TTL`, `banned = now + TTL + grace`, and a freshly
created placeholder item carries `created = expires = banned = 0`. -/
theorem claim_C7_timestamps {T : Type} [Inhabited T] (o : Opts) (now0 : Int)
    (c : CacheState T) (h : CacheReach (newWithOpts T o now0).2 c) :
    StateInv c ∧
      (∀ (c1 : CacheState T) (key : Key) (ttl grace now : Int) (d : T)
          (e : Option Err) (c2 : CacheState T) (it : Item T),
        write c1 key ttl grace now d e = some (c2, it) →
          it.created = now ∧ it.expires = now + ttl ∧
            it.banned = now + ttl + grace) ∧
      (∀ (c1 : CacheState T) (opts : GetOpts T) (p : Pass T),
        (createCacheItem c1 opts).2.2 = some p →
          (createCacheItem c1 opts).1.created = 0 ∧
            (createCacheItem c1 opts).1.expires = 0 ∧
            (createCacheItem c1 opts).1.banned = 0) := by
  refine ⟨?_, ?_, ?_⟩
  · induction h with
    | refl => intro kv hkv; cases hkv
    | tail _ hstep ih => exact cacheStep_inv hstep ih
  · intro c1 key ttl grace now d e c2 it hw
    have hfields := write_item_eq hw
    exact ⟨hfields.2.2.2.1, hfields.2.2.2.2.1, hfields.2.2.2.2.2⟩
  · intro c1 opts p hp
    cases hl : lookupItem c1.items opts.key with
    | some item =>
      by_cases hwk : item.working = true
      · simp only [createCacheItem, hl, hwk, if_pos] at hp
        cases hp
      · rw [Bool.not_eq_true] at hwk
        simp only [createCacheItem, hl, hwk]
        rw [if_neg (by simp)]
        simp
    | none =>
      simp [createCacheItem, hl]

/-- Witness for C7 at the freshly constructed default cache. -/
theorem claim_C7_witness :
    StateInv (newWithOpts String DefaultOpts 0).2 ∧
      (∀ (c1 : CacheState String) (key : Key) (ttl grace now : Int) (d : String)
          (e : Option Err) (c2 : CacheState String) (it : Item String),
        write c1 key ttl grace now d e = some (c2, it) →
          it.created = now ∧ it.expires = now + ttl ∧
            it.banned = now + ttl + grace) ∧
      (∀ (c1 : CacheState String) (opts : GetOpts String) (p : Pass String),
        (createCacheItem c1 opts).2.2 = some p →
          (createCacheItem c1 opts).1.created = 0 ∧
            (createCacheItem c1 opts).1.expires = 0 ∧
            (createCacheItem c1 opts).1.banned = 0) :=
  claim_C7_timestamps DefaultOpts 0 _ CacheReach.refl

/-- C6: a GC sweep removes exactly the entries satisfying
`!working && banned > 0 && now ≥ banned` at sweep time (the survivors are
the original entries, unmodified and in order), returns the number of
entries removed, and never evicts an entry that is working or whose
banned timestamp is zero. Keys are duplicate-free, as in a Go map. -/
theorem claim_C6_purge {T : Type} (now : Int) (items : List (Key × Item T))
    (hnd : (items.map Prod.fst).Nodup) :
    (purgeExpiredItems now items).1 =
        items.filter (fun kv => !purgeCond now kv.2) ∧
      (purgeExpiredItems now items).2 =
        (items.filter (fun kv => purgeCond now kv.2)).length ∧
      ∀ kv ∈ items, (kv.2.working = true ∨ kv.2.banned = 0) →
        kv ∈ (purgeExpiredItems now items).1 := by
  have hpoint : ∀ kv ∈ items,
      ((items.filter (fun kv => purgeCond now kv.2)).map Prod.fst).contains kv.1 =
        purgeCond now kv.2 := by
    intro kv hkv
    cases hcond : purgeCond now kv.2 with
    | true =>
      have : kv.1 ∈ (items.filter (fun kv => purgeCond now kv.2)).map Prod.fst :=
        List.mem_map_of_mem Prod.fst (List.mem_filter.mpr ⟨hkv, hcond⟩)
      simpa using this
    | false =>
      refine Bool.eq_false_iff.mpr (fun hcontains => ?_)
      have hmem : kv.1 ∈ (items.filter (fun kv => purgeCond now kv.2)).map Prod.fst := by
        simpa using hcontains
      rcases List.mem_map.mp hmem with ⟨kv', hkv', hfst⟩
      have heqkv : kv' = kv :=
        keyUnique hnd (List.mem_filter.mp hkv').1 hkv hfst
      have : purgeCond now kv.2 = true := by
        rw [← heqkv]; exact (List.mem_filter.mp hkv').2
      rw [hcond] at this
      cases this
  have hfil : (purgeExpiredItems now items).1 =
      items.filter (fun kv => !purgeCond now kv.2) := by
    simp only [purgeExpiredItems]
    exact List.filter_congr (fun kv hkv => by rw [hpoint kv hkv])
  refine ⟨hfil, ?_, ?_⟩
  · simp [purgeExpiredItems]
  · intro kv hkv hsafe
    rw [hfil]
    refine List.mem_filter.mpr ⟨hkv, ?_⟩
    rcases hsafe with hsafe | hsafe <;>
      simp [purgeCond, hsafe]

/-- Witness for C6: a three-entry map — one evictable, one working, one
with zero banned timestamp — loses exactly the evictable entry. -/
theorem claim_C6_witness :
    (purgeExpiredItems 100
          [("a", (⟨"x", none, false, 0, 0, 10, 20⟩ : Item String)),
            ("b", ⟨"y", none, true, 0, 0, 10, 20⟩),
            ("c", ⟨"z", none, false, 0, 0, 0, 0⟩)]).1 =
        List.filter (fun kv => !purgeCond 100 kv.2)
          [("a", (⟨"x", none, false, 0, 0, 10, 20⟩ : Item String)),
            ("b", ⟨"y", none, true, 0, 0, 10, 20⟩),
            ("c", ⟨"z", none, false, 0, 0, 0, 0⟩)] ∧
      (purgeExpiredItems 100
          [("a", (⟨"x", none, false, 0, 0, 10, 20⟩ : Item String)),
            ("b", ⟨"y", none, true, 0, 0, 10, 20⟩),
            ("c", ⟨"z", none, false, 0, 0, 0, 0⟩)]).2 =
        (List.filter (fun kv => purgeCond 100 kv.2)
          [("a", (⟨"x", none, false, 0, 0, 10, 20⟩ : Item String)),
            ("b", ⟨"y", none, true, 0, 0, 10, 20⟩),
            ("c", ⟨"z", none, false, 0, 0, 0, 0⟩)]).length ∧
      ∀ kv ∈ [("a", (⟨"x", none, false, 0, 0, 10, 20⟩ : Item String)),
            ("b", ⟨"y", none, true, 0, 0, 10, 20⟩),
            ("c", ⟨"z", none, false, 0, 0, 0, 0⟩)],
        (kv.2.working = true ∨ kv.2.banned = 0) →
          kv ∈ (purgeExpiredItems 100
            [("a", (⟨"x", none, false, 0, 0, 10, 20⟩ : Item String)),
              ("b", ⟨"y", none, true, 0, 0, 10, 20⟩),
              ("c", ⟨"z", none, false, 0, 0, 0, 0⟩)]).1 :=
  claim_C6_purge 100 _ (by decide)

theorem claim_C4_witness :
    getWithOpts cacheW4 ⟨"k", 7, 3, ("v2", none)⟩ 50 =
        some (.wait (⟨default, none, true, cacheW4.readyCtr + 1, 0, 0, 0⟩ : Item String),
          { cacheW4 with
              items := setItem cacheW4.items "k"
                ⟨default, none, true, cacheW4.readyCtr + 1, 0, 0, 0⟩
              readyCtr := cacheW4.readyCtr + 1 },
          some ⟨"k", 7, 3, ("v2", none)⟩) ∧
      ∀ nowW, ∃ r,
        write
          { cacheW4 with
              items := setItem cacheW4.items "k"
                ⟨default, none, true, cacheW4.readyCtr + 1, 0, 0, 0⟩
              readyCtr := cacheW4.readyCtr + 1 }
          "k" 7 3 nowW "v2" none = some r ∧
        r.2.data = "v2" ∧ r.2.err = none :=
  (claim_C4_error_forces_wait cacheW4 ⟨"k", 7, 3, ("v2", none)⟩ 50
    ⟨"old", some "oops", false, 1, 0, 10, 20⟩ (by decide) (by decide)).2 rfl

/-- C10: `NewWithOpts` mutates the caller's `Opts` struct: a zero
`GCInterval` is overwritten with the one-hour default (3.6e12 ns) before
the cache is built, so the caller's field is no longer zero afterwards; a
non-zero `GCInterval` and the `DefaultTTL` and `DefaultGrace` fields are
left untouched; the cache's interval is read from the updated struct. -/
theorem claim_C10_opts_mutation (T : Type) (opts : Opts) (now : Int) :
    (opts.gcInterval = 0 →
      (newWithOpts T opts now).1.gcInterval = 3600 * 1000000000 ∧
        (newWithOpts T opts now).1.gcInterval ≠ 0) ∧
      (opts.gcInterval ≠ 0 → (newWithOpts T opts now).1 = opts) ∧
      (newWithOpts T opts now).1.defaultTTL = opts.defaultTTL ∧
      (newWithOpts T opts now).1.defaultGrace = opts.defaultGrace ∧
      (newWithOpts T opts now).2.gcInterval = (newWithOpts T opts now).1.gcInterval := by
  unfold newWithOpts DefaultOpts
  by_cases h : opts.gcInterval = 0 <;> simp [h]

/-- Witness for C10: constructing from a struct with zero GC interval
mutates it to one hour and keeps TTL 5 and grace 7. -/
theorem claim_C10_witness :
    ((⟨5, 7, 0⟩ : Opts).gcInterval = 0 →
      (newWithOpts Unit ⟨5, 7, 0⟩ 0).1.gcInterval = 3600 * 1000000000 ∧
        (newWithOpts Unit ⟨5, 7, 0⟩ 0).1.gcInterval ≠ 0) ∧
      ((⟨5, 7, 0⟩ : Opts).gcInterval ≠ 0 →
        (newWithOpts Unit ⟨5, 7, 0⟩ 0).1 = ⟨5, 7, 0⟩) ∧
      (newWithOpts Unit ⟨5, 7, 0⟩ 0).1.defaultTTL = (⟨5, 7, 0⟩ : Opts).defaultTTL ∧
      (newWithOpts Unit ⟨5, 7, 0⟩ 0).1.defaultGrace = (⟨5, 7, 0⟩ : Opts).defaultGrace ∧
      (newWithOpts Unit ⟨5, 7, 0⟩ 0).2.gcInterval =
        (newWithOpts Unit ⟨5, 7, 0⟩ 0).1.gcInterval :=
  claim_C10_opts_mutation Unit ⟨5, 7, 0⟩ 0

end Cache

namespace Workerpool

theorem done_capacity (s : PoolState) (err : Option Err) :
    (done s err).capacity = s.capacity := by
  unfold done
  by_cases hc : s.closed = true
  · simp [hc]
  · simp [hc]

theorem done_active_le (s : PoolState) (err : Option Err) :
    (done s err).active ≤ s.active := by
  unfold done
  by_cases hc : s.closed = true
  · simp [hc]
  · simp only [hc, if_neg Bool.false_ne_true]
    exact Nat.sub_le _ _

/-- C8: `done(err)` decrements the in-flight counter first and
unconditionally (so `wait()` can unblock even after close); on a closed
pool it neither releases a slot nor records an error; on an open pool it
releases exactly one slot and appends `err` to the error sequence exactly
when `err` is non-nil. -/
theorem claim_C8_done_callback (s : PoolState) (err : Option Err) :
    (done s err).inflight = s.inflight - 1 ∧
      (s.closed = true →
        (done s err).active = s.active ∧ (done s err).errors = s.errors) ∧
      (s.closed = false →
        (done s err).active = s.active - 1 ∧
          (done s err).errors = s.errors ++ err.toList) := by
  unfold done
  by_cases hc : s.closed = true
  · simp [hc]
  · rw [Bool.not_eq_true] at hc
    simp only [hc]
    refine ⟨by simp, by simp, fun _ => ⟨by simp, ?_⟩⟩
    cases err <;> simp

/-- Witness for C8 on a concrete open pool with one recorded error. -/
theorem claim_C8_witness :
    (done ⟨2, 3, 2, ["a"], false⟩ (some "b")).inflight = 3 - 1 ∧
      ((⟨2, 3, 2, ["a"], false⟩ : PoolState).closed = true →
        (done ⟨2, 3, 2, ["a"], false⟩ (some "b")).active = 2 ∧
          (done ⟨2, 3, 2, ["a"], false⟩ (some "b")).errors = ["a"]) ∧
      ((⟨2, 3, 2, ["a"], false⟩ : PoolState).closed = false →
        (done ⟨2, 3, 2, ["a"], false⟩ (some "b")).active = 2 - 1 ∧
          (done ⟨2, 3, 2, ["a"], false⟩ (some "b")).errors =
            ["a"] ++ (some "b").toList) :=
  claim_C8_done_callback ⟨2, 3, 2, ["a"], false⟩ (some "b")

/-- Capacity is constant and the active count never exceeds it. -/
def PoolInv (n : Nat) (s : PoolState) : Prop :=
  s.capacity = n ∧ s.active ≤ n

theorem poolReach_inv {n : Nat} {s : PoolState} (h : PoolReach n s) :
    PoolInv n s := by
  induction h with
  | refl => exact ⟨rfl, Nat.zero_le _⟩
  | tail _ hstep ih =>
    obtain ⟨hcap, hact⟩ := ih
    cases hstep with
    | acquire hlt hc =>
      refine ⟨hcap, ?_⟩
      dsimp only
      omega
    | finishOpen err hc h1 =>
      exact ⟨(done_capacity _ _).trans hcap,
        Nat.le_trans (done_active_le _ _) hact⟩
    | finishClosed err hc =>
      exact ⟨(done_capacity _ _).trans hcap,
        Nat.le_trans (done_active_le _ _) hact⟩
    | closeStep => exact ⟨hcap, hact⟩

/-- C9: in every reachable state of a pool built with `New n`, the number
of jobs holding a slot (admitted by `Submit` and not yet released by
`done`) is at most `n`; and while `n` jobs are active no step increases
the count — the buffered-channel send in `Submit` is enabled only when a
slot is free, so a saturated pool admits nobody until a release. -/
theorem claim_C9_capacity_bound (n : Nat) (s : PoolState) (h : PoolReach n s) :
    s.active ≤ n ∧
      ∀ s', PoolStep s s' → s.active = n → s'.active ≤ s.active := by
  have hinv := poolReach_inv h
  refine ⟨hinv.2, ?_⟩
  intro s' hstep hsat
  cases hstep with
  | acquire hlt hc =>
    exfalso
    have hcap := hinv.1
    omega
  | finishOpen err hc h1 => exact done_active_le _ _
  | finishClosed err hc => exact done_active_le _ _
  | closeStep => exact Nat.le_refl _

/-- Witness for C9: the state of a capacity-2 pool after one admission. -/
theorem claim_C9_witness :
    (⟨2, 1, 1, [], false⟩ : PoolState).active ≤ 2 ∧
      ∀ s', PoolStep ⟨2, 1, 1, [], false⟩ s' →
        (⟨2, 1, 1, [], false⟩ : PoolState).active = 2 →
          s'.active ≤ (⟨2, 1, 1, [], false⟩ : PoolState).active :=
  claim_C9_capacity_bound 2 ⟨2, 1, 1, [], false⟩
    (PoolReach.tail PoolReach.refl
      (PoolStep.acquire (newPool 2) (by decide) rfl))

end Workerpool
